import Mathlib

/-!
Verification of the replication engine of tap_shopify (streams/base.py).

The development shallowly embeds the pagination, bookmarking and retry logic
of the source file:

* the retry policy built from the two stacked backoff decorators in
  shopify_error_handling, together with is_not_status_code_fn and
  retry_after_wait_gen;
* the windowed synchronous pager Stream.get_objects with its since_id
  resume cursor and OutOfOrderIdsError checks;
* the asynchronous pager get_objects_async / RunAsync with its count query,
  page jobs, chunking by the concurrency bucket, per-request 429/5xx
  handling and the page-ordered merge.

Timestamps are modelled as natural numbers counting microseconds, so that
datetime.replace(microsecond=0) is expressible.  Remote calls are modelled
by explicit response scripts or by a fetch oracle passed as a function, and
loops are given explicit fuel so that every definition is executable.
-/

namespace TapShopify

/-- RESULTS_PER_PAGE constant of the source (default page limit). -/
def RESULTS_PER_PAGE : Nat := 250

/-- DATE_WINDOW_SIZE constant of the source (default window, one day). -/
def DATE_WINDOW_SIZE : Nat := 1

/-- MAX_RETRIES constant of the source: maximum attempts of the 5xx backoff. -/
def MAX_RETRIES : Nat := 5

/-- One microsecond-resolution day, for translating concrete dates. -/
def microsPerDay : Nat := 86400000000

/-- datetime.replace(microsecond=0): truncate a microsecond timestamp to
whole seconds. -/
def truncMicro (t : Nat) : Nat := t / 1000000 * 1000000

/-- Membership test of a Python range(lo, hi): lo <= c < hi (hi excluded). -/
def pyRange (lo hi c : Nat) : Bool := decide (lo ≤ c) && decide (c < hi)

/-- Membership test of the Python list [429]. -/
def only429 (c : Nat) : Bool := c == 429

/-- is_not_status_code_fn of the source.  The exception's code attribute is
modelled as an Option Nat (none when the attribute is absent).  A giveup
predicate: true (fail immediately) when the code is truthy (present and
nonzero, Python truthiness) and not in the container; false (retry)
otherwise. -/
def is_not_status_code_fn (statusCode : Nat → Bool) : Option Nat → Bool
  | none => false
  | some c => decide (c ≠ 0) && !(statusCode c)

/-- retry_after_wait_gen of the source: the single value yielded by the wait
generator, math.floor(float(Retry-After)).  The header is modelled as a
rational number. -/
def retry_after_wait_gen (retryAfter : ℚ) : ℤ := ⌊retryAfter⌋

/-- One scripted behaviour of the remote for a single attempt of the wrapped
synchronous call: a successful return value, a pyactiveresource ClientError
carrying its status code and the Retry-After header of its response, a
pyactiveresource ServerError carrying its status code, or a
formats.Error / simplejson JSONDecodeError (no status-code attribute). -/
inductive Att where
  | ok (v : Nat)
  | clientErr (code : Option Nat) (retryAfter : ℚ)
  | serverErr (code : Option Nat)
  | decodeErr
deriving DecidableEq, Repr

/-- Terminal outcome of a call wrapped by shopify_error_handling. -/
inductive RetryOutcome where
  | ok (v : Nat)
  /-- The exception was re-raised because a giveup predicate returned true. -/
  | raised (e : Att)
  /-- The exception was re-raised because the outer decorator reached its
  max_tries attempt cap. -/
  | exhausted (e : Att)
  /-- The single-yield Retry-After wait generator of the inner decorator was
  exhausted by a second 429 in the same attempt; the backoff library then
  terminates the call (it re-raises, it does not retry further). -/
  | genExhausted (e : Att)
  /-- The script ran out of attempts (analogue of running out of fuel). -/
  | scriptEnd
deriving DecidableEq, Repr

/-- Semantics of the two stacked backoff.on_exception decorators of
shopify_error_handling, executed against a script of attempt behaviours.

The outer decorator retries ServerError / formats.Error / JSONDecodeError
with giveup is_not_status_code_fn(range(500, 599)) and max_tries =
MAX_RETRIES; tries counts its attempts starting at 1, and an exception
arriving on attempt number MAX_RETRIES is re-raised.  The inner decorator
retries ClientError with giveup is_not_status_code_fn([429]), no attempt
cap, jitter None, and wait generator retry_after_wait_gen, which yields
exactly one value per inner invocation: used records whether that single
yield was already consumed in the current attempt run, and it resets
whenever the outer decorator starts a fresh attempt.  The returned list
collects the sleeps performed by the 429 handler (the exponential backoff
sleeps of the outer decorator carry default random jitter and are not
modelled). -/
def runRetries : List Att → Nat → Bool → RetryOutcome × List ℤ
  | [], _, _ => (.scriptEnd, [])
  | .ok v :: _, _, _ => (.ok v, [])
  | .clientErr code ra :: rest, tries, used =>
    if is_not_status_code_fn only429 code then (.raised (.clientErr code ra), [])
    else if used then (.genExhausted (.clientErr code ra), [])
    else
      let r := runRetries rest tries true
      (r.1, retry_after_wait_gen ra :: r.2)
  | .serverErr code :: rest, tries, _ =>
    if is_not_status_code_fn (pyRange 500 599) code then (.raised (.serverErr code), [])
    else if tries = MAX_RETRIES then (.exhausted (.serverErr code), [])
    else runRetries rest (tries + 1) false
  | .decodeErr :: rest, tries, _ =>
    if is_not_status_code_fn (pyRange 500 599) none then (.raised .decodeErr, [])
    else if tries = MAX_RETRIES then (.exhausted .decodeErr, [])
    else runRetries rest (tries + 1) false

/-- A call wrapped by shopify_error_handling, run against a script: the
outer try counter starts at 1 and the inner wait generator is fresh. -/
def shopify_error_handling (script : List Att) : RetryOutcome × List ℤ :=
  runRetries script 1 false

/-- A remote record: its id and its updated_at timestamp (microseconds). -/
structure Obj where
  id : Nat
  upd : Nat
deriving DecidableEq, Repr

/-- to_dict of the SDK object.  Modelled from the spec: the StreamDriver
converts fetched remote objects into sink-ready records with no further
processing, so the conversion is the identity on the record data. -/
def toDict (o : Obj) : Obj := o

/-- The mutable singer state relevant to one stream: the list of emitted
records (the generator's yields so far), the persisted since_id bookmark
field (none when absent) and the persisted replication-cursor writes in
order of occurrence. -/
structure SyncState where
  emitted : List Obj
  sinceId : Option Nat
  cursorWrites : List Nat
deriving DecidableEq, Repr

/-- Outcome of (a part of) the synchronous pager get_objects. -/
inductive StepOut where
  /-- The outer while loop finished: updated_at_min reached stop_time. -/
  | done (st : SyncState)
  /-- The inner while loop committed its window (break). -/
  | committed (st : SyncState)
  /-- OutOfOrderIdsError was raised. -/
  | badOrder (st : SyncState)
  /-- Fuel ran out (the source loop would keep running). -/
  | noFuel (st : SyncState)
  /-- Unreachable under a positive page limit: a full page was empty, where
  the source's objects[-1] would fail. -/
  | invalid (st : SyncState)
deriving DecidableEq, Repr

/-- The state carried by any outcome. -/
def stateOf : StepOut → SyncState
  | .done st => st
  | .committed st => st
  | .badOrder st => st
  | .noFuel st => st
  | .invalid st => st

/-- The for-obj-in-objects loop of get_objects: each record is checked
against since_id before being yielded; the first record with id < since_id
raises OutOfOrderIdsError after the earlier records of the page were
already yielded.  Returns the yielded prefix and whether the page passed. -/
def emitAll (objs : List Obj) (sinceId : Nat) : List Obj × Bool :=
  match objs with
  | [] => ([], true)
  | o :: rest =>
    if o.id < sinceId then ([], false)
    else
      let r := emitAll rest sinceId
      (o :: r.1, r.2)

/-- The inner while-True loop of get_objects for one window
[minT, maxT).  remote is the shopify_error_handling-wrapped call_api,
taking since_id, updated_at_min, updated_at_max and limit.  A page shorter
than the limit commits the window: the since_id bookmark field is popped
and updated_at_max is persisted as the replication cursor.  A full page
must have its last id equal to its maximum id; then since_id advances to
the last id and is persisted before the next page request. -/
def pageLoop (remote : Nat → Nat → Nat → Nat → List Obj) (limit minT maxT : Nat) :
    Nat → Nat → SyncState → StepOut
  | 0, _, st => .noFuel st
  | fuel + 1, sinceId, st =>
    let objects := remote sinceId minT maxT limit
    let r := emitAll objects sinceId
    let st1 : SyncState := { st with emitted := st.emitted ++ r.1 }
    if r.2 then
      if objects.length < limit then
        .committed { st1 with sinceId := none, cursorWrites := st1.cursorWrites ++ [maxT] }
      else
        match objects.getLast?, (objects.map (·.id)).max? with
        | some lastO, some m =>
          if lastO.id ≠ m then .badOrder st1
          else pageLoop remote limit minT maxT fuel lastO.id { st1 with sinceId := some lastO.id }
        | _, _ => .invalid st1
    else .badOrder st1

/-- Python `get_since_id() or 1`: the resumed since_id, with falsy values
(absent bookmark or 0) replaced by 1. -/
def sinceIdOr1 : Option Nat → Nat
  | none => 1
  | some n => if n = 0 then 1 else n

/-- The outer while loop of get_objects: walk windows from updated_at_min
to stop_time.  Each window spans date_window_size (w); updated_at_max is
capped at stop_time.  Note that the source does not truncate microseconds
of updated_at_min, despite its comment saying it is important. -/
def get_objects (remote : Nat → Nat → Nat → Nat → List Obj) (limit w stop : Nat) :
    Nat → Nat → SyncState → StepOut
  | 0, _, st => .noFuel st
  | fuel + 1, minT, st =>
    if minT < stop then
      let sinceId := sinceIdOr1 st.sinceId
      let maxT := min (minT + w) stop
      match pageLoop remote limit minT maxT fuel sinceId st with
      | .committed st' => get_objects remote limit w stop fuel maxT st'
      | .done st' => .done st'
      | .badOrder st' => .badOrder st'
      | .noFuel st' => .noFuel st'
      | .invalid st' => .invalid st'
    else .done st

/-- stop_time of get_objects: the configured end_date when present,
otherwise now() with microseconds truncated. -/
def stopOf (endDate : Option Nat) (now : Nat) : Nat :=
  match endDate with
  | some e => e
  | none => truncMicro now

/-- A full get_objects run from a fresh generator: bookmark cursor b,
resumed since_id field, empty emission and write traces. -/
def get_objects_run (remote : Nat → Nat → Nat → Nat → List Obj)
    (limit w : Nat) (endDate : Option Nat) (now : Nat) (b : Nat)
    (sinceId0 : Option Nat) (fuel : Nat) : StepOut :=
  get_objects remote limit w (stopOf endDate now) fuel b ⟨[], sinceId0, []⟩

/-- One HTTP response in the async path, as seen by RunAsync._get_async:
status, Retry-After header (read on 429) and the parsed record list of the
body (read on success). -/
structure HResp where
  status : Nat
  retryAfter : ℚ
  body : List Obj
deriving DecidableEq, Repr

/-- RunAsync._get_async run against a script of successive responses for
one page request.  A 429 sleeps floor(Retry-After) and re-issues; a status
in range(500, 599) re-issues immediately with no sleep; anything else is
parsed as the JSON result.  Returns the sleeps performed and the body, or
none when the script ends before a terminal response.  The retry recursion
carries no attempt counter that is ever consulted, so there is no cap. -/
def get_async : List HResp → Option (List ℤ × List Obj)
  | [] => none
  | r :: rest =>
    if r.status = 429 then
      match get_async rest with
      | some (s, b) => some (⌊r.retryAfter⌋ :: s, b)
      | none => none
    else if pyRange 500 599 r.status then get_async rest
    else some ([], r.body)

/-- math.ceil(count / results_per_page) of RunAsync._runner, for a positive
page size. -/
def numPages (count pageSize : Nat) : Nat := (count + pageSize - 1) / pageSize

/-- The 1-indexed page numbers of the jobs built by RunAsync._runner. -/
def pageJobs (count pageSize : Nat) : List Nat :=
  (List.range (numPages count pageSize)).map (· + 1)

/-- singer.utils.chunk: consecutive slices of size bucket.  Structural fuel
bounds the recursion; chunkList supplies fuel equal to the list length,
which suffices whenever bucket is positive. -/
def chunkAux (bucket : Nat) : Nat → List α → List (List α)
  | _, [] => []
  | 0, l => [l]
  | fuel + 1, l => l.take bucket :: chunkAux bucket fuel (l.drop bucket)

/-- The chunked jobs of RunAsync._runner. -/
def chunkList (l : List α) (bucket : Nat) : List (List α) :=
  chunkAux bucket l.length l

/-- Concatenation of a list of lists (the jobs of all chunks in order). -/
def joinList : List (List α) → List α
  | [] => []
  | l :: rest => l ++ joinList rest

/-- Insert a (page, records) pair into a list sorted by page number. -/
def insertByKey (p : Nat × List Obj) : List (Nat × List Obj) → List (Nat × List Obj)
  | [] => [p]
  | q :: rest => if p.1 ≤ q.1 then p :: q :: rest else q :: insertByKey p rest

/-- Python sorted(all_jobs_results_dict.items()): the accumulated
(page, records) pairs ordered by ascending page number.  The page keys are
pairwise distinct, so sorting by key determines the result. -/
def sortByKey : List (Nat × List Obj) → List (Nat × List Obj)
  | [] => []
  | p :: rest => insertByKey p (sortByKey rest)

/-- The final merge loop of RunAsync._runner: walk the sorted pairs and
concatenate nonempty record lists (`if len(v) > 0: ordered_results += v`). -/
def concatNonempty : List (Nat × List Obj) → List Obj
  | [] => []
  | p :: rest =>
    if 0 < p.2.length then p.2 ++ concatNonempty rest else concatNonempty rest

/-- The page-ordered merge of RunAsync._runner over accumulated pairs. -/
def mergeResults (pairs : List (Nat × List Obj)) : List Obj :=
  concatNonempty (sortByKey pairs)

/-- RunAsync._runner with all page requests resolved: the count query gave
count, jobs are built for pages 1..numPages, chunked by the concurrency
bucket, every request of every chunk resolves via fetchPage, and the
results dictionary is merged in ascending page order.  The pairs are listed
here chunk by chunk in job order; completion-order independence of the
merge is proved separately over arbitrary permutations of the pairs. -/
def runnerMerged (count pageSize bucket : Nat) (fetchPage : Nat → List Obj) : List Obj :=
  mergeResults ((joinList (chunkList (pageJobs count pageSize) bucket)).map
    (fun p => (p, fetchPage p)))

/-- RunAsync.find: retry_limit is stored on the instance but never read by
the request path, so it is an inert argument. -/
def runAsyncFind (retryLimit : Nat) (count pageSize bucket : Nat)
    (fetchPage : Nat → List Obj) : List Obj :=
  let _ := retryLimit
  runnerMerged count pageSize bucket fetchPage

/-- Output of get_objects_async: the emitted records and the replication
cursor writes. -/
structure AsyncOut where
  emitted : List Obj
  cursorWrites : List Nat
deriving DecidableEq, Repr

/-- Stream.get_objects_async: updated_at_max is the configured end_date or
now() truncated to seconds; the whole range is fetched through
RunAsync.find (with retry_limit = MAX_RETRIES), every record is yielded,
and then updated_at_max is written as the replication cursor
unconditionally. -/
def get_objects_async (fetchPage : Nat → List Obj) (count pageSize bucket : Nat)
    (endDate : Option Nat) (now : Nat) : AsyncOut :=
  let upper := stopOf endDate now
  ⟨runAsyncFind MAX_RETRIES count pageSize bucket fetchPage, [upper]⟩

/-- The window-and-id filter served by the remote to the synchronous pager,
for a canonical stored sequence ds.  Modelled from the spec: the remote
fetch contract is an external collaborator returning the records of the
half-open window [lo, hi) whose id is at least since_id, in the canonical
order, capped at the page limit. -/
def syncRemoteOf (ds : List Obj) (sinceId lo hi limit : Nat) : List Obj :=
  (ds.filter (fun o =>
    decide (lo ≤ o.upd) && decide (o.upd < hi) && decide (sinceId ≤ o.id))).take limit

/-- The offset paging served by the remote to the asynchronous pager for
the same canonical sequence ds.  Modelled from the spec: page p holds the
p-th consecutive slice of the canonical sequence. -/
def asyncPageOf (ds : List Obj) (limit p : Nat) : List Obj :=
  (ds.drop ((p - 1) * limit)).take limit

/-- Specification of what the synchronous pager emits: the concatenation,
window by window, of the canonical records of each window (with the
since_id = 1 filter of the first page of each window). -/
def windowFilters (ds : List Obj) (w stop : Nat) : Nat → Nat → List Obj
  | 0, _ => []
  | fuel + 1, minT =>
    if minT < stop then
      ds.filter (fun o =>
        decide (minT ≤ o.upd) && decide (o.upd < min (minT + w) stop) && decide (1 ≤ o.id))
        ++ windowFilters ds w stop fuel (min (minT + w) stop)
    else []

/-- Specification of the cursor writes of the synchronous pager: one write
of updated_at_max per committed window. -/
def windowMaxes (w stop : Nat) : Nat → Nat → List Nat
  | 0, _ => []
  | fuel + 1, minT =>
    if minT < stop then
      min (minT + w) stop :: windowMaxes w stop fuel (min (minT + w) stop)
    else []

/-- Remote of the window-commit scenario: for the window with page limit 2,
the first fetch (since_id 1) returns records with ids 1 and 2, the second
fetch (since_id 2) returns the record with id 3. -/
def scenCommitRemote : Nat → Nat → Nat → Nat → List Obj :=
  fun sinceId _ _ _ =>
    if sinceId = 1 then [⟨1, 0⟩, ⟨2, 0⟩] else if sinceId = 2 then [⟨3, 0⟩] else []

/-- Remote of the bad-ordering scenario: a full page whose last id (5) is
not the maximum id in the page (7). -/
def scenBadOrderRemote : Nat → Nat → Nat → Nat → List Obj := fun _ _ _ _ => [⟨7, 0⟩, ⟨5, 0⟩]

/-- Remote of the since-id-violation scenario: a page containing a record
whose id (0) is below the since_id (1) used for the fetch. -/
def scenLowIdRemote : Nat → Nat → Nat → Nat → List Obj := fun _ _ _ _ => [⟨0, 0⟩]

/-- Remote that echoes the updated_at_min it was queried with inside the
returned record, exposing the window bound actually used. -/
def echoMinRemote : Nat → Nat → Nat → Nat → List Obj := fun _ lo _ _ => [⟨1, lo⟩]

/-- A canonical two-record dataset whose id order disagrees with its
updated_at order: id 3 was updated in the second window, id 5 in the
first. -/
def c9ds : List Obj := [⟨3, 1⟩, ⟨5, 0⟩]

/-!  Helper lemmas (shared across claims). -/

/-- A page whose records all honor the since_id contract is emitted whole. -/
theorem emitAll_of_all_ge {objs : List Obj} {s : Nat}
    (h : ∀ o ∈ objs, s ≤ o.id) : emitAll objs s = (objs, true) := by
  induction objs with
  | nil => rfl
  | cons o rest ih =>
    have ho : ¬ o.id < s := by
      have := h o (by simp)
      omega
    simp [emitAll, ho, ih fun o ho' => h o (by simp [ho'])]

/-- When the per-record check passes, the emitted prefix is the whole page. -/
theorem emitAll_fst_of_true {objs : List Obj} {s : Nat}
    (h : (emitAll objs s).2 = true) : (emitAll objs s).1 = objs := by
  induction objs with
  | nil => rfl
  | cons o rest ih =>
    by_cases ho : o.id < s
    · simp [emitAll, ho] at h
    · simp [emitAll, ho] at h ⊢
      exact ih h

/-- The per-record check fails exactly when some record of the page has an
id below the since_id used for the fetch. -/
theorem emitAll_false_iff {objs : List Obj} {s : Nat} :
    (emitAll objs s).2 = false ↔ ∃ o ∈ objs, o.id < s := by
  induction objs with
  | nil => simp [emitAll]
  | cons o rest ih =>
    by_cases ho : o.id < s
    · simp [emitAll, ho]
    · simp [emitAll, ho, ih]

/-- C10 (confirmed): the give-up classification returns false for any
caught exception whose status-code attribute is absent or falsy, so such an
exception is classified as retryable; in particular a ClientError carrying
no status code is retried by the rate-limit layer (one retry is performed
after the Retry-After sleep) instead of being surfaced immediately. -/
theorem giveup_false_without_status_code :
    (∀ statusCode : Nat → Bool, is_not_status_code_fn statusCode none = false)
    ∧ (∀ statusCode : Nat → Bool, is_not_status_code_fn statusCode (some 0) = false)
    ∧ (∀ (ra : ℚ) (v : Nat) (rest : List Att),
        shopify_error_handling (.clientErr none ra :: .ok v :: rest)
          = (.ok v, [retry_after_wait_gen ra])) := by
  refine ⟨fun _ => rfl, fun statusCode => by simp [is_not_status_code_fn],
    fun ra v rest => ?_⟩
  simp [shopify_error_handling, runRetries, is_not_status_code_fn]

/-- C4 counterexample: status 599 is a 5xx, but the give-up set of the
outer decorator is range(500, 599), which excludes 599, so a call raising
ServerError with code 599 is re-raised on the very first attempt: a 4th
consecutive 599 response does make the call fail, contradicting the claim
that a 4th consecutive 5xx does not. -/
theorem server_599_gives_up_immediately :
    shopify_error_handling (List.replicate 4 (.serverErr (some 599)) ++ [.ok 7])
      = (.raised (.serverErr (some 599)), [])
    ∧ (shopify_error_handling
        (List.replicate 4 (.serverErr (some 599)) ++ [.ok 7])).1 ≠ .ok 7 := by
  constructor <;> decide

/-- C4 (corrected): a transient server error with status in range(500, 599)
(that is, 500..598 — status 599 gives up immediately) and an undecodable
response body are retried with exponential backoff up to a maximum of 5
attempts; a 5th consecutive such error exhausts the retries and the call
fails, while a 4th consecutive one is followed by a successful 5th
attempt. -/
theorem server_5xx_retry_cap (c v : Nat) (h1 : 500 ≤ c) (h2 : c ≤ 598) :
    shopify_error_handling (List.replicate 5 (.serverErr (some c)))
      = (.exhausted (.serverErr (some c)), [])
    ∧ shopify_error_handling (List.replicate 4 (.serverErr (some c)) ++ [.ok v])
      = (.ok v, [])
    ∧ shopify_error_handling (List.replicate 5 .decodeErr) = (.exhausted .decodeErr, [])
    ∧ shopify_error_handling (List.replicate 4 .decodeErr ++ [.ok v]) = (.ok v, []) := by
  have hc : pyRange 500 599 c = true := by
    simp only [pyRange, Bool.and_eq_true, decide_eq_true_eq]
    omega
  refine ⟨?_, ?_, ?_, ?_⟩ <;>
    simp [shopify_error_handling, runRetries, hc, MAX_RETRIES, List.replicate,
      is_not_status_code_fn]

/-- Closed witness of the amended C4 statement at status 500. -/
theorem server_5xx_retry_cap_witness :
    shopify_error_handling (List.replicate 5 (.serverErr (some 500)))
      = (.exhausted (.serverErr (some 500)), [])
    ∧ shopify_error_handling (List.replicate 4 (.serverErr (some 500)) ++ [.ok 7])
      = (.ok 7, []) :=
  ⟨(server_5xx_retry_cap 500 7 (by decide) (by decide)).1,
   (server_5xx_retry_cap 500 7 (by decide) (by decide)).2.1⟩

/-- C5 counterexample: consecutive 429 responses within one wrapped call
are not absorbed unboundedly.  The wait generator of the rate-limit layer
yields exactly one value per attempt run, so the second consecutive 429
exhausts it and the call terminates instead of retrying: the scripted call
with two 429 responses followed by a success never reaches the success. -/
theorem second_429_not_absorbed :
    shopify_error_handling [.clientErr (some 429) 3, .clientErr (some 429) 3, .ok 7]
      = (.genExhausted (.clientErr (some 429) 3), [3])
    ∧ (shopify_error_handling
        [.clientErr (some 429) 3, .clientErr (some 429) 3, .ok 7]).1 ≠ .ok 7 := by
  constructor <;> decide

/-- C5 (corrected): a 429 response causes a sleep of exactly
floor(Retry-After) with no jitter (exactly the server-provided duration
when the header is a whole number), followed by a retry of the same
request; but at most one 429 is absorbed per attempt run of a wrapped call
(the single-yield wait generator makes a second consecutive 429 terminal),
so rate-limit retries are not unbounded.  Retry-After: 3 causes exactly a
3-second pause before exactly one retry. -/
theorem rate_limit_single_retry (ra : ℚ) (v tries : Nat) (rest : List Att) :
    runRetries (.clientErr (some 429) ra :: rest) tries false
      = ((runRetries rest tries true).1,
          retry_after_wait_gen ra :: (runRetries rest tries true).2)
    ∧ shopify_error_handling [.clientErr (some 429) ra, .ok v] = (.ok v, [⌊ra⌋])
    ∧ (∀ n : ℕ, ra = (n : ℚ) → retry_after_wait_gen ra = (n : ℤ))
    ∧ shopify_error_handling
        (.clientErr (some 429) ra :: .clientErr (some 429) ra :: rest)
      = (.genExhausted (.clientErr (some 429) ra), [⌊ra⌋])
    ∧ shopify_error_handling [.clientErr (some 429) 3, .ok v] = (.ok v, [3]) := by
  refine ⟨?_, ?_, ?_, ?_, ?_⟩
  · simp [runRetries, is_not_status_code_fn, only429]
  · simp [shopify_error_handling, runRetries, is_not_status_code_fn, only429,
      retry_after_wait_gen]
  · intro n hn
    simp [retry_after_wait_gen, hn]
  · simp [shopify_error_handling, runRetries, is_not_status_code_fn, only429,
      retry_after_wait_gen]
  · simp [shopify_error_handling, runRetries, is_not_status_code_fn, only429,
      retry_after_wait_gen]

/-- Closed witness of the amended C5 statement with Retry-After 3. -/
theorem rate_limit_single_retry_witness :
    shopify_error_handling [.clientErr (some 429) 3, .ok 7] = (.ok 7, [3])
    ∧ retry_after_wait_gen 3 = (3 : ℤ) :=
  ⟨(rate_limit_single_retry 3 7 1 []).2.2.2.2,
   (rate_limit_single_retry 3 7 1 []).2.2.1 3 (by norm_num)⟩

/-- C2 (confirmed): a page shorter than the limit commits the window: the
in-progress since_id field is removed, updated_at_max is persisted as the
replication cursor, and the inner loop breaks (so the outer loop advances
to the next window).  Concretely, for the window from day 0 to day 1 with
page limit 2 and pages [id 1, id 2] then [id 3], the run emits ids 1, 2, 3,
commits the cursor to day 1 (2023-01-02 for a 2023-01-01 window start) and
ends with the in-progress id cleared. -/
theorem window_commit_on_short_page
    (remote : Nat → Nat → Nat → Nat → List Obj)
    (limit minT maxT fuel sinceId : Nat) (st : SyncState)
    (hok : (emitAll (remote sinceId minT maxT limit) sinceId).2 = true)
    (hlen : (remote sinceId minT maxT limit).length < limit) :
    pageLoop remote limit minT maxT (fuel + 1) sinceId st
      = .committed ⟨st.emitted ++ remote sinceId minT maxT limit, none,
          st.cursorWrites ++ [maxT]⟩
    ∧ get_objects scenCommitRemote 2 1 1 4 0 ⟨[], none, []⟩
      = .done ⟨[⟨1, 0⟩, ⟨2, 0⟩, ⟨3, 0⟩], none, [1]⟩ := by
  constructor
  · simp only [pageLoop, hok, if_true, if_pos hlen, emitAll_fst_of_true hok]
  · decide

/-- Closed witness of C2 at the scenario's first window fetch. -/
theorem window_commit_on_short_page_witness :
    pageLoop scenCommitRemote 2 0 1 1 2 ⟨[⟨1, 0⟩, ⟨2, 0⟩], some 2, []⟩
      = .committed ⟨[⟨1, 0⟩, ⟨2, 0⟩, ⟨3, 0⟩], none, [1]⟩ :=
  (window_commit_on_short_page scenCommitRemote 2 0 1 0 2
    ⟨[⟨1, 0⟩, ⟨2, 0⟩], some 2, []⟩ (by decide) (by decide)).1

/-- C3 (confirmed): a record with id below the since_id of its fetch makes
the pager raise OutOfOrderIdsError (after yielding the records that
preceded it) with no bookmark write; a full page whose last id is not the
maximum id of the page raises OutOfOrderIdsError before any bookmark
commit; otherwise the full page advances since_id to the last id and
persists it as the in-progress cursor before the next page request. -/
theorem out_of_order_id_checks
    (remote : Nat → Nat → Nat → Nat → List Obj)
    (limit minT maxT fuel sinceId : Nat) (st : SyncState) :
    ((emitAll (remote sinceId minT maxT limit) sinceId).2 = false ↔
      ∃ o ∈ remote sinceId minT maxT limit, o.id < sinceId)
    ∧ ((emitAll (remote sinceId minT maxT limit) sinceId).2 = false →
      pageLoop remote limit minT maxT (fuel + 1) sinceId st
        = .badOrder ⟨st.emitted ++ (emitAll (remote sinceId minT maxT limit) sinceId).1,
            st.sinceId, st.cursorWrites⟩)
    ∧ (∀ lastO m,
        (emitAll (remote sinceId minT maxT limit) sinceId).2 = true →
        (remote sinceId minT maxT limit).length = limit →
        (remote sinceId minT maxT limit).getLast? = some lastO →
        ((remote sinceId minT maxT limit).map (·.id)).max? = some m →
        lastO.id ≠ m →
        pageLoop remote limit minT maxT (fuel + 1) sinceId st
          = .badOrder ⟨st.emitted ++ remote sinceId minT maxT limit,
              st.sinceId, st.cursorWrites⟩)
    ∧ (∀ lastO m,
        (emitAll (remote sinceId minT maxT limit) sinceId).2 = true →
        (remote sinceId minT maxT limit).length = limit →
        (remote sinceId minT maxT limit).getLast? = some lastO →
        ((remote sinceId minT maxT limit).map (·.id)).max? = some m →
        lastO.id = m →
        pageLoop remote limit minT maxT (fuel + 1) sinceId st
          = pageLoop remote limit minT maxT fuel lastO.id
              ⟨st.emitted ++ remote sinceId minT maxT limit, some lastO.id,
                st.cursorWrites⟩) := by
  refine ⟨emitAll_false_iff, fun hbad => ?_, fun lastO m hok hfull hlast hmax hne => ?_,
    fun lastO m hok hfull hlast hmax heq => ?_⟩
  · simp only [pageLoop, hbad, Bool.false_eq_true, if_false]
  · have hnl : ¬ (remote sinceId minT maxT limit).length < limit := by omega
    simp only [pageLoop, hok, if_true, if_neg hnl, emitAll_fst_of_true hok, hlast, hmax,
      if_pos hne]
  · have hnl : ¬ (remote sinceId minT maxT limit).length < limit := by omega
    simp only [pageLoop, hok, if_true, if_neg hnl, emitAll_fst_of_true hok, hlast, hmax,
      heq, ne_eq, not_true_eq_false, if_false]

/-- Closed witness of C3: the since-id violation, the last-id-is-not-max
violation (the spec's 5-versus-7 scenario) and the since-id advance each
exercised on a concrete page. -/
theorem out_of_order_id_checks_witness :
    pageLoop scenLowIdRemote 250 0 1 1 1 ⟨[], none, []⟩ = .badOrder ⟨[], none, []⟩
    ∧ pageLoop scenBadOrderRemote 2 0 1 1 1 ⟨[], none, []⟩
      = .badOrder ⟨[⟨7, 0⟩, ⟨5, 0⟩], none, []⟩
    ∧ pageLoop scenCommitRemote 2 0 1 2 1 ⟨[], none, []⟩
      = pageLoop scenCommitRemote 2 0 1 1 2 ⟨[⟨1, 0⟩, ⟨2, 0⟩], some 2, []⟩ := by
  refine ⟨?_, ?_, ?_⟩
  · exact (out_of_order_id_checks scenLowIdRemote 250 0 1 0 1 ⟨[], none, []⟩).2.1 (by decide)
  · exact (out_of_order_id_checks scenBadOrderRemote 2 0 1 0 1 ⟨[], none, []⟩).2.2.1
      ⟨5, 0⟩ 7 (by decide) (by decide) (by decide) (by decide) (by decide)
  · exact (out_of_order_id_checks scenCommitRemote 2 0 1 1 1 ⟨[], none, []⟩).2.2.2
      ⟨2, 0⟩ 2 (by decide) (by decide) (by decide) (by decide) (by decide)

/-- The inner page loop writes the replication cursor only when it commits
its window, and then it writes exactly updated_at_max once. -/
theorem pageLoop_writes (remote : Nat → Nat → Nat → Nat → List Obj)
    (limit minT maxT : Nat) :
    ∀ fuel sinceId st,
      (∃ st', pageLoop remote limit minT maxT fuel sinceId st = .committed st'
          ∧ st'.cursorWrites = st.cursorWrites ++ [maxT])
      ∨ ((stateOf (pageLoop remote limit minT maxT fuel sinceId st)).cursorWrites
            = st.cursorWrites
         ∧ ∀ st', pageLoop remote limit minT maxT fuel sinceId st ≠ .committed st') := by
  intro fuel
  induction fuel with
  | zero =>
    intro sinceId st
    exact Or.inr ⟨rfl, fun st' h => by cases h⟩
  | succ fuel ih =>
    intro sinceId st
    simp only [pageLoop]
    by_cases hok : (emitAll (remote sinceId minT maxT limit) sinceId).2
    · simp only [hok, if_true]
      by_cases hlen : (remote sinceId minT maxT limit).length < limit
      · simp only [if_pos hlen]
        exact Or.inl ⟨_, rfl, rfl⟩
      · simp only [if_neg hlen]
        rcases hl : (remote sinceId minT maxT limit).getLast? with _ | lastO
        · rcases hm : ((remote sinceId minT maxT limit).map (·.id)).max? with _ | m <;>
            simp only [hl, hm] <;>
            exact Or.inr ⟨rfl, fun st' h => by cases h⟩
        · rcases hm : ((remote sinceId minT maxT limit).map (·.id)).max? with _ | m
          · simp only [hl, hm]
            exact Or.inr ⟨rfl, fun st' h => by cases h⟩
          · simp only [hl, hm]
            by_cases hne : lastO.id ≠ m
            · simp only [if_pos hne]
              exact Or.inr ⟨rfl, fun st' h => by cases h⟩
            · simp only [if_neg hne]
              exact ih lastO.id _
    · simp only [Bool.not_eq_true] at hok
      simp only [hok, Bool.false_eq_true, if_false]
      exact Or.inr ⟨rfl, fun st' h => by cases h⟩

/-- The replication-cursor writes of a get_objects run extend the previous
writes by a chain of non-decreasing values starting at or above the initial
updated_at_min (the bookmark of the run). -/
theorem get_objects_writes_chain (remote : Nat → Nat → Nat → Nat → List Obj)
    (limit w stop : Nat) :
    ∀ fuel minT st,
      ∃ ws, (stateOf (get_objects remote limit w stop fuel minT st)).cursorWrites
              = st.cursorWrites ++ ws
        ∧ List.Chain (· ≤ ·) minT ws := by
  intro fuel
  induction fuel with
  | zero =>
    intro minT st
    exact ⟨[], by simp [get_objects, stateOf], List.Chain.nil⟩
  | succ fuel ih =>
    intro minT st
    by_cases hlt : minT < stop
    · have hminmax : minT ≤ min (minT + w) stop := le_min (by omega) (by omega)
      rcases pageLoop_writes remote limit minT (min (minT + w) stop) fuel
          (sinceIdOr1 st.sinceId) st with ⟨st', hres, hw⟩ | ⟨hw, hnc⟩
      · rcases ih (min (minT + w) stop) st' with ⟨ws, hws, hchain⟩
        refine ⟨min (minT + w) stop :: ws, ?_, List.Chain.cons hminmax hchain⟩
        simp only [get_objects, if_pos hlt, hres, hws, hw]
        simp
      · rcases hres : pageLoop remote limit minT (min (minT + w) stop) fuel
            (sinceIdOr1 st.sinceId) st with st' | st' | st' | st' | st'
        · refine ⟨[], ?_, List.Chain.nil⟩
          simp only [get_objects, if_pos hlt, hres]
          rw [hres] at hw
          simpa using hw
        · exact absurd hres (hnc st')
        · refine ⟨[], ?_, List.Chain.nil⟩
          simp only [get_objects, if_pos hlt, hres]
          rw [hres] at hw
          simpa using hw
        · refine ⟨[], ?_, List.Chain.nil⟩
          simp only [get_objects, if_pos hlt, hres]
          rw [hres] at hw
          simpa using hw
        · refine ⟨[], ?_, List.Chain.nil⟩
          simp only [get_objects, if_pos hlt, hres]
          rw [hres] at hw
          simpa using hw
    · exact ⟨[], by simp [get_objects, if_neg hlt, stateOf], List.Chain.nil⟩

/-- C1 counterexample: with a configured end_date (day 5) before the
current bookmark (day 10), the async path drains its (empty) range and then
unconditionally persists end_date as the replication cursor, moving the
persisted cursor backwards: the write sequence [5] is not a forward chain
from the previously committed cursor 10. -/
theorem async_cursor_moves_backwards :
    (get_objects_async (fun _ => []) 0 250 40 (some 5) 123456789).cursorWrites = [5]
    ∧ ¬ List.Chain (· ≤ ·) 10
        (get_objects_async (fun _ => []) 0 250 40 (some 5) 123456789).cursorWrites := by
  refine ⟨rfl, fun h => ?_⟩
  cases h with
  | cons h1 h2 => exact absurd h1 (by decide)

/-- C1 (corrected): the synchronous windowed path only ever appends
replication-cursor values that form a non-decreasing chain starting at the
run's initial bookmark, and it writes the cursor only when a window has
been fully drained (the short-page commit), writing exactly that window's
updated_at_max.  The async path commits the sync upper bound exactly once
after draining, which is a forward move only when the upper bound (end_date
or now) is at least the current bookmark; a configured end_date before the
bookmark moves the cursor backwards (see the counterexample). -/
theorem cursor_monotone_amended :
    (∀ (remote : Nat → Nat → Nat → Nat → List Obj) limit w stop fuel minT st,
      ∃ ws, (stateOf (get_objects remote limit w stop fuel minT st)).cursorWrites
              = st.cursorWrites ++ ws
        ∧ List.Chain (· ≤ ·) minT ws)
    ∧ (∀ (remote : Nat → Nat → Nat → Nat → List Obj) limit minT maxT fuel sinceId st,
      (∃ st', pageLoop remote limit minT maxT fuel sinceId st = .committed st'
          ∧ st'.cursorWrites = st.cursorWrites ++ [maxT])
      ∨ ((stateOf (pageLoop remote limit minT maxT fuel sinceId st)).cursorWrites
            = st.cursorWrites
         ∧ ∀ st', pageLoop remote limit minT maxT fuel sinceId st ≠ .committed st'))
    ∧ (∀ (fetchPage : Nat → List Obj) count pageSize bucket endDate now b,
        b ≤ stopOf endDate now →
        List.Chain (· ≤ ·) b
          (get_objects_async fetchPage count pageSize bucket endDate now).cursorWrites) := by
  refine ⟨fun remote limit w stop fuel minT st =>
      get_objects_writes_chain remote limit w stop fuel minT st,
    fun remote limit minT maxT fuel sinceId st =>
      pageLoop_writes remote limit minT maxT fuel sinceId st,
    fun fetchPage count pageSize bucket endDate now b hb => ?_⟩
  exact List.Chain.cons hb List.Chain.nil

/-- C6 (code_bug): the source's comment says it is important that
updated_at_min has microseconds truncated, and the upstream implementation
truncates it at the top of each window, but this source uses the bookmark
untruncated: a run from bookmark 00:00:00.500000 (500000 microseconds)
queries the remote with updated_at_min = 500000, not the truncated 0, as
the echoed record shows.  The remaining parts of the claim do hold:
updated_at_max is min(updated_at_min + window, stop_time), as the committed
cursor value 1000000 = min(500000 + day, 1000000) shows, and the pager
terminates immediately exactly when updated_at_min has reached the sync
upper bound. -/
theorem updated_at_min_not_truncated :
    truncMicro 500000 = 0
    ∧ 500000 ≠ truncMicro 500000
    ∧ get_objects echoMinRemote 250 microsPerDay 1000000 2 500000 ⟨[], none, []⟩
        = .done ⟨[⟨1, 500000⟩], none, [1000000]⟩
    ∧ (∀ (remote : Nat → Nat → Nat → Nat → List Obj) limit w stop fuel minT st,
        stop ≤ minT → get_objects remote limit w stop (fuel + 1) minT st = .done st) := by
  refine ⟨rfl, by decide, by decide, fun remote limit w stop fuel minT st h => ?_⟩
  simp [get_objects, Nat.not_lt.mpr h]

/-- Closed witness of the C6 termination conjunct at a concrete input. -/
theorem updated_at_min_not_truncated_witness :
    get_objects echoMinRemote 250 1 5 3 7 ⟨[], none, []⟩ = .done ⟨[], none, []⟩ :=
  updated_at_min_not_truncated.2.2.2 echoMinRemote 250 1 5 2 7 ⟨[], none, []⟩ (by decide)

/-- C8 counterexample: status 599 is a 5xx, but the async request handler
re-issues only statuses in range(500, 599), which excludes 599, so a 599
response is parsed as a successful body instead of being re-issued: with
the script [599 with empty body, 200 with one record], the request returns
the empty 599 body rather than the result of a re-issued request. -/
theorem status_599_not_reissued :
    get_async [⟨599, 0, []⟩, ⟨200, 0, [⟨1, 0⟩]⟩] = some ([], [])
    ∧ get_async [⟨599, 0, []⟩, ⟨200, 0, [⟨1, 0⟩]⟩] ≠ get_async [⟨200, 0, [⟨1, 0⟩]⟩] := by
  constructor <;> decide

/-- C8 (corrected): each async page request handles 429 by sleeping
floor(Retry-After) and re-issuing the same request, handles statuses in
range(500, 599) — that is 500..598, not 599 — by re-issuing immediately
with no sleep, absorbs any number of consecutive such 5xx responses (no
attempt cap), and ignores the retry_limit passed to the pager entirely. -/
theorem async_request_retry_behaviour (r : HResp) (rest : List HResp) :
    (r.status = 429 →
      get_async (r :: rest)
        = (get_async rest).map (fun p => (⌊r.retryAfter⌋ :: p.1, p.2)))
    ∧ (500 ≤ r.status → r.status ≤ 598 → get_async (r :: rest) = get_async rest)
    ∧ (∀ (n : Nat) (body : List Obj) (ra : ℚ),
        get_async (List.replicate n ⟨500, ra, []⟩ ++ [⟨200, ra, body⟩]) = some ([], body))
    ∧ (∀ r1 r2 count pageSize bucket (fetchPage : Nat → List Obj),
        runAsyncFind r1 count pageSize bucket fetchPage
          = runAsyncFind r2 count pageSize bucket fetchPage) := by
  refine ⟨fun h429 => ?_, fun h5 h5' => ?_, fun n body ra => ?_,
    fun r1 r2 count pageSize bucket fetchPage => rfl⟩
  · rcases hrest : get_async rest with _ | ⟨s, b⟩ <;> simp [get_async, h429, hrest]
  · have hne : ¬ r.status = 429 := by omega
    have hin : pyRange 500 599 r.status = true := by
      simp only [pyRange, Bool.and_eq_true, decide_eq_true_eq]
      omega
    simp [get_async, hne, hin]
  · induction n with
    | zero => simp [get_async, pyRange]
    | succ n ih => simpa [get_async, pyRange] using ih

/-- Closed witness of the amended C8 statement: one 429 retry with its
floor(Retry-After) sleep, and one 500 re-issue with no sleep. -/
theorem async_request_retry_behaviour_witness :
    get_async [⟨429, 3, []⟩, ⟨200, 0, [⟨5, 9⟩]⟩]
      = (get_async [⟨200, 0, [⟨5, 9⟩]⟩]).map (fun p => (⌊(3 : ℚ)⌋ :: p.1, p.2))
    ∧ get_async [⟨500, 0, []⟩, ⟨200, 0, [⟨5, 9⟩]⟩] = get_async [⟨200, 0, [⟨5, 9⟩]⟩] :=
  ⟨(async_request_retry_behaviour ⟨429, 3, []⟩ [⟨200, 0, [⟨5, 9⟩]⟩]).1 rfl,
   (async_request_retry_behaviour ⟨500, 0, []⟩ [⟨200, 0, [⟨5, 9⟩]⟩]).2.1
     (by decide) (by decide)⟩

/-- The page count is the ceiling of count / pageSize: characterising
bounds on numPages. -/
theorem numPages_bounds (count ps : Nat) (hps : 0 < ps) :
    count ≤ ps * numPages count ps ∧ ps * numPages count ps < count + ps := by
  unfold numPages
  rcases count with _ | k
  · rw [Nat.zero_add, Nat.div_eq_of_lt (by omega)]
    omega
  · have hstep : k + 1 + ps - 1 = k + ps := by omega
    rw [hstep, Nat.add_div_right k hps]
    have h := Nat.div_add_mod k ps
    have hm := Nat.mod_lt k hps
    have hmul : ps * (k / ps + 1) = ps * (k / ps) + ps := by ring
    omega

/-- numPages is math.ceil of the rational count / pageSize. -/
theorem numPages_eq_ceil (count ps : Nat) (hps : 0 < ps) :
    (numPages count ps : ℤ) = ⌈(count : ℚ) / (ps : ℚ)⌉ := by
  rcases numPages_bounds count ps hps with ⟨h1, h2⟩
  have hq : (0 : ℚ) < (ps : ℚ) := by exact_mod_cast hps
  have h1q : (count : ℚ) ≤ (ps : ℚ) * (numPages count ps : ℚ) := by exact_mod_cast h1
  have h2q : (ps : ℚ) * (numPages count ps : ℚ) < (count : ℚ) + (ps : ℚ) := by
    exact_mod_cast h2
  rw [eq_comm, Int.ceil_eq_iff]
  constructor
  · rw [lt_div_iff₀ hq]
    push_cast
    linarith
  · rw [div_le_iff₀ hq]
    push_cast
    linarith

/-- Chunking with a positive bucket and enough fuel concatenates back to
the original job list. -/
theorem chunkAux_join {α : Type} (bucket : Nat) (hb : 0 < bucket) :
    ∀ fuel (l : List α), l.length ≤ fuel → joinList (chunkAux bucket fuel l) = l := by
  intro fuel
  induction fuel with
  | zero =>
    intro l hl
    have hnil : l = [] := List.length_eq_zero.mp (Nat.le_zero.mp hl)
    subst hnil
    rfl
  | succ fuel ih =>
    intro l hl
    cases l with
    | nil => rfl
    | cons a t =>
      have hdrop : ((a :: t).drop bucket).length ≤ fuel := by
        rw [List.length_drop, List.length_cons]
        rw [List.length_cons] at hl
        omega
      simp only [chunkAux, joinList]
      rw [ih ((a :: t).drop bucket) hdrop]
      exact List.take_append_drop bucket (a :: t)

/-- Every chunk is nonempty and at most bucket long, and all chunks except
possibly the last are exactly bucket long. -/
theorem chunkAux_sizes {α : Type} (bucket : Nat) (hb : 0 < bucket) :
    ∀ fuel (l : List α), l.length ≤ fuel →
      (∀ c ∈ chunkAux bucket fuel l, c ≠ [] ∧ c.length ≤ bucket)
      ∧ (∀ c ∈ (chunkAux bucket fuel l).dropLast, c.length = bucket) := by
  intro fuel
  induction fuel with
  | zero =>
    intro l hl
    have hnil : l = [] := List.length_eq_zero.mp (Nat.le_zero.mp hl)
    subst hnil
    exact ⟨by simp [chunkAux], by simp [chunkAux]⟩
  | succ fuel ih =>
    intro l hl
    cases l with
    | nil => exact ⟨by simp [chunkAux], by simp [chunkAux]⟩
    | cons a t =>
      have hdrop : ((a :: t).drop bucket).length ≤ fuel := by
        rw [List.length_drop, List.length_cons]
        rw [List.length_cons] at hl
        omega
      rcases ih ((a :: t).drop bucket) hdrop with ⟨ih1, ih2⟩
      simp only [chunkAux]
      constructor
      · intro c hc
        rcases List.mem_cons.mp hc with hc | hc
        · subst hc
          refine ⟨?_, ?_⟩
          · rcases bucket with _ | b
            · omega
            · simp [List.take_succ_cons]
          · simp only [List.length_take, List.length_cons]
            omega
        · exact ih1 c hc
      · intro c hc
        rcases hrest : chunkAux bucket fuel ((a :: t).drop bucket) with _ | ⟨r, rs⟩
        · rw [hrest] at hc
          simp at hc
        · rw [hrest] at hc
          rw [List.dropLast_cons₂] at hc
          rcases List.mem_cons.mp hc with hc | hc
          · subst hc
            have hne : (a :: t).drop bucket ≠ [] := by
              intro hnil
              rw [hnil] at hrest
              simp [chunkAux] at hrest
            have hlen : bucket < (a :: t).length := by
              by_contra hle
              exact hne (List.drop_eq_nil_of_le (by omega))
            simp only [List.length_take, List.length_cons]
            rw [List.length_cons] at hlen
            omega
          · rw [← hrest] at hc
            exact ih2 c hc

/-- Inserting a pair keeps the sorted list a permutation of the cons. -/
theorem insertByKey_perm (p : Nat × List Obj) (l : List (Nat × List Obj)) :
    List.Perm (insertByKey p l) (p :: l) := by
  induction l with
  | nil => exact List.Perm.refl _
  | cons q rest ih =>
    by_cases h : p.1 ≤ q.1
    · simp [insertByKey, h]
    · simp only [insertByKey, if_neg h]
      exact (ih.cons q).trans (List.Perm.swap p q rest)

/-- The sorted accumulation is a permutation of the accumulated pairs. -/
theorem sortByKey_perm (l : List (Nat × List Obj)) : List.Perm (sortByKey l) l := by
  induction l with
  | nil => exact List.Perm.refl _
  | cons p rest ih =>
    exact (insertByKey_perm p (sortByKey rest)).trans (ih.cons p)

/-- Inserting into a key-sorted list keeps it key-sorted. -/
theorem insertByKey_sorted (p : Nat × List Obj) (l : List (Nat × List Obj))
    (h : l.Sorted (fun a b => a.1 ≤ b.1)) :
    (insertByKey p l).Sorted (fun a b => a.1 ≤ b.1) := by
  induction l with
  | nil => simp [insertByKey]
  | cons q rest ih =>
    rw [List.sorted_cons] at h
    by_cases hpq : p.1 ≤ q.1
    · simp only [insertByKey, if_pos hpq]
      rw [List.sorted_cons]
      refine ⟨fun b hb => ?_, by rw [List.sorted_cons]; exact h⟩
      rcases List.mem_cons.mp hb with hb | hb
      · subst hb; exact hpq
      · exact le_trans hpq (h.1 b hb)
    · simp only [insertByKey, if_neg hpq]
      rw [List.sorted_cons]
      refine ⟨fun b hb => ?_, ih h.2⟩
      rcases List.mem_cons.mp ((insertByKey_perm p rest).mem_iff.mp hb) with hb | hb
      · subst hb; omega
      · exact h.1 b hb

/-- sortByKey sorts by ascending page number. -/
theorem sortByKey_sorted (l : List (Nat × List Obj)) :
    (sortByKey l).Sorted (fun a b => a.1 ≤ b.1) := by
  induction l with
  | nil => simp [sortByKey]
  | cons p rest ih => exact insertByKey_sorted p (sortByKey rest) ih

/-- A key-sorted list with pairwise-distinct keys is strictly key-sorted. -/
theorem sorted_strict_of_nodup_keys {l : List (Nat × List Obj)}
    (hs : l.Sorted (fun a b => a.1 ≤ b.1)) (hnd : (l.map Prod.fst).Nodup) :
    l.Sorted (fun a b => a.1 < b.1) := by
  have hne : l.Pairwise (fun a b => a.1 ≠ b.1) := List.pairwise_map.mp hnd
  exact (hs.and hne).imp fun h => lt_of_le_of_ne h.1 h.2

/-- Two accumulations of the same pairs with pairwise-distinct page keys
sort to the same list: Python's sorted(dict.items()) does not depend on
the order in which the futures completed. -/
theorem sortByKey_eq_of_perm (l1 l2 : List (Nat × List Obj)) (hperm : List.Perm l1 l2)
    (hnd : (l2.map Prod.fst).Nodup) : sortByKey l1 = sortByKey l2 := by
  have hp : List.Perm (sortByKey l1) (sortByKey l2) :=
    ((sortByKey_perm l1).trans hperm).trans (sortByKey_perm l2).symm
  have hnd1 : ((sortByKey l2).map Prod.fst).Nodup :=
    (((sortByKey_perm l2).map Prod.fst).nodup_iff).mpr hnd
  have hnd2 : ((sortByKey l1).map Prod.fst).Nodup :=
    ((hp.map Prod.fst).nodup_iff).mpr hnd1
  haveI : IsAntisymm (Nat × List Obj) (fun a b => a.1 < b.1) :=
    ⟨fun a b h h' => (lt_asymm h h').elim⟩
  exact List.eq_of_perm_of_sorted hp
    (sorted_strict_of_nodup_keys (sortByKey_sorted l1) hnd2)
    (sorted_strict_of_nodup_keys (sortByKey_sorted l2) hnd1)

/-- Skipping empty pages does not change the concatenation. -/
theorem concatNonempty_eq_join (pairs : List (Nat × List Obj)) :
    concatNonempty pairs = joinList (pairs.map (·.2)) := by
  induction pairs with
  | nil => rfl
  | cons p rest ih =>
    by_cases h : 0 < p.2.length
    · simp only [concatNonempty, if_pos h, List.map_cons, joinList, ih]
    · have hnil : p.2 = [] := by
        cases hp : p.2
        · rfl
        · rw [hp] at h; simp at h
      simp [concatNonempty, hnil, ih, joinList]

/-- C7 (confirmed): the concurrent pager computes
pageCount = ceil(count / pageSize), partitions the 1-indexed page jobs into
consecutive chunks of the concurrency-budget size (every chunk nonempty and
at most the budget, all but the last exactly the budget, concatenating back
to the job list), and merges results in ascending page order, skipping
empty pages, independently of the order in which workers completed; with
budget 2 and 5 pages exactly 3 chunks of sizes (2, 2, 1) are dispatched. -/
theorem runner_pagination_and_merge :
    (∀ count ps, 0 < ps →
      (count ≤ ps * numPages count ps ∧ ps * numPages count ps < count + ps)
      ∧ (numPages count ps : ℤ) = ⌈(count : ℚ) / (ps : ℚ)⌉)
    ∧ (∀ (l : List Nat) bucket, 0 < bucket →
        joinList (chunkList l bucket) = l
        ∧ (∀ c ∈ chunkList l bucket, c ≠ [] ∧ c.length ≤ bucket)
        ∧ (∀ c ∈ (chunkList l bucket).dropLast, c.length = bucket))
    ∧ (chunkList (pageJobs 5 1) 2).map List.length = [2, 2, 1]
    ∧ (∀ pairs pairs' : List (Nat × List Obj), List.Perm pairs' pairs →
        (pairs.map Prod.fst).Nodup → mergeResults pairs' = mergeResults pairs)
    ∧ (∀ pairs : List (Nat × List Obj),
        concatNonempty pairs = joinList (pairs.map (·.2))) := by
  refine ⟨fun count ps hps => ⟨numPages_bounds count ps hps, numPages_eq_ceil count ps hps⟩,
    fun l bucket hb => ⟨chunkAux_join bucket hb l.length l le_rfl,
      (chunkAux_sizes bucket hb l.length l le_rfl).1,
      (chunkAux_sizes bucket hb l.length l le_rfl).2⟩,
    by decide, fun pairs pairs' hperm hnd => ?_, concatNonempty_eq_join⟩
  unfold mergeResults
  rw [sortByKey_eq_of_perm pairs' pairs hperm hnd]

/-- Closed witness of C7: the ceiling bound at count 5, page size 2, and
completion-order independence on two concretely permuted result pairs. -/
theorem runner_pagination_and_merge_witness :
    ((5 ≤ 2 * numPages 5 2 ∧ 2 * numPages 5 2 < 5 + 2)
      ∧ (numPages 5 2 : ℤ) = ⌈(5 : ℚ) / (2 : ℚ)⌉)
    ∧ mergeResults [(2, [⟨2, 0⟩]), (1, [⟨1, 0⟩])]
        = mergeResults [(1, [⟨1, 0⟩]), (2, [⟨2, 0⟩])] :=
  ⟨runner_pagination_and_merge.1 5 2 (by decide),
   runner_pagination_and_merge.2.2.2.1 [(1, [⟨1, 0⟩]), (2, [⟨2, 0⟩])]
     [(2, [⟨2, 0⟩]), (1, [⟨1, 0⟩])] (by decide) (by decide)⟩

/-- Closed witness of the amended C1 statement: a sync run and an async run
with the upper bound at or above the bookmark. -/
theorem cursor_monotone_amended_witness :
    (∃ ws, (stateOf (get_objects scenCommitRemote 2 1 1 4 0 ⟨[], none, []⟩)).cursorWrites
        = [] ++ ws ∧ List.Chain (· ≤ ·) 0 ws)
    ∧ List.Chain (· ≤ ·) 3
        (get_objects_async (fun _ => []) 0 250 40 (some 5) 0).cursorWrites :=
  ⟨cursor_monotone_amended.1 scenCommitRemote 2 1 1 4 0 ⟨[], none, []⟩,
   cursor_monotone_amended.2.2 (fun _ => []) 0 250 40 (some 5) 0 3 (by decide)⟩

/-- A short, order-respecting page commits its window (shared helper for
the whole-run lemmas). -/
theorem pageLoop_commit_of_short (remote : Nat → Nat → Nat → Nat → List Obj)
    (limit minT maxT fuel sinceId : Nat) (st : SyncState)
    (hok : (emitAll (remote sinceId minT maxT limit) sinceId).2 = true)
    (hlen : (remote sinceId minT maxT limit).length < limit) :
    pageLoop remote limit minT maxT (fuel + 1) sinceId st
      = .committed ⟨st.emitted ++ remote sinceId minT maxT limit, none,
          st.cursorWrites ++ [maxT]⟩ := by
  simp only [pageLoop, hok, if_true, if_pos hlen, emitAll_fst_of_true hok]

/-- The window remote never returns more records than the dataset holds. -/
theorem syncRemoteOf_length_le (ds : List Obj) (s lo hi lim : Nat) :
    (syncRemoteOf ds s lo hi lim).length ≤ ds.length := by
  unfold syncRemoteOf
  rw [List.length_take]
  exact le_trans (min_le_right _ _) (List.length_filter_le _ ds)

/-- Records returned by the window remote come from the dataset. -/
theorem syncRemoteOf_mem_ds {ds : List Obj} {s lo hi lim : Nat} {o : Obj}
    (h : o ∈ syncRemoteOf ds s lo hi lim) : o ∈ ds :=
  List.mem_of_mem_filter (List.mem_of_mem_take h)

/-- With a page limit above the dataset size, the page cap never bites. -/
theorem syncRemoteOf_eq_filter (ds : List Obj) (s lo hi lim : Nat)
    (h : ds.length < lim) :
    syncRemoteOf ds s lo hi lim
      = ds.filter (fun o =>
          decide (lo ≤ o.upd) && decide (o.upd < hi) && decide (s ≤ o.id)) := by
  unfold syncRemoteOf
  apply List.take_of_length_le
  exact le_trans (List.length_filter_le _ ds) (by omega)

/-- One unfolding step of the outer window loop. -/
theorem get_objects_succ (remote : Nat → Nat → Nat → Nat → List Obj)
    (limit w stop fuel minT : Nat) (st : SyncState) :
    get_objects remote limit w stop (fuel + 1) minT st
      = if minT < stop then
          match pageLoop remote limit minT (min (minT + w) stop) fuel
              (sinceIdOr1 st.sinceId) st with
          | .committed st' => get_objects remote limit w stop fuel (min (minT + w) stop) st'
          | .done st' => .done st'
          | .badOrder st' => .badOrder st'
          | .noFuel st' => .noFuel st'
          | .invalid st' => .invalid st'
        else .done st := rfl

/-- A whole synchronous run over the dataset-backed remote: with windows of
positive size, ids at least 1 and a page limit above the dataset size, the
run terminates and emits exactly the per-window filters in window order,
committing each window's updated_at_max. -/
theorem get_objects_filterRemote (ds : List Obj) (limit w stop : Nat)
    (hw : 1 ≤ w) (hlim : ds.length < limit) (hids : ∀ o ∈ ds, 1 ≤ o.id) :
    ∀ fuel minT E C, stop - minT < fuel →
      get_objects (syncRemoteOf ds) limit w stop fuel minT ⟨E, none, C⟩
        = .done ⟨E ++ windowFilters ds w stop fuel minT, none,
            C ++ windowMaxes w stop fuel minT⟩ := by
  intro fuel
  induction fuel with
  | zero =>
    intro minT E C hfuel
    omega
  | succ fuel ih =>
    intro minT E C hfuel
    by_cases hlt : minT < stop
    · obtain ⟨f, rfl⟩ : ∃ f, fuel = f + 1 := ⟨fuel - 1, by omega⟩
      have hok : (emitAll (syncRemoteOf ds 1 minT (min (minT + w) stop) limit) 1).2
          = true := by
        rw [emitAll_of_all_ge fun o ho => hids o (syncRemoteOf_mem_ds ho)]
      have hshort : (syncRemoteOf ds 1 minT (min (minT + w) stop) limit).length < limit :=
        lt_of_le_of_lt (syncRemoteOf_length_le ds 1 minT (min (minT + w) stop) limit) hlim
      have hcommit := pageLoop_commit_of_short (syncRemoteOf ds) limit minT
        (min (minT + w) stop) f 1 ⟨E, none, C⟩ hok hshort
      have hrec := ih (min (minT + w) stop)
        (E ++ syncRemoteOf ds 1 minT (min (minT + w) stop) limit) (C ++ [min (minT + w) stop])
        (by omega)
      rw [get_objects_succ, if_pos hlt]
      have hsid : sinceIdOr1 (SyncState.sinceId ⟨E, none, C⟩) = 1 := rfl
      rw [hsid]
      simp only [hcommit]
      rw [hrec, syncRemoteOf_eq_filter ds 1 minT (min (minT + w) stop) limit hlim]
      simp only [windowFilters, windowMaxes, if_pos hlt, List.append_assoc,
        List.singleton_append]
    · rw [get_objects_succ, if_neg hlt]
      simp only [windowFilters, windowMaxes, if_neg hlt, List.append_nil]

/-- The concatenation of the per-window filters is a permutation of the
records of the full range: contiguous windows partition the range. -/
theorem windowFilters_perm (ds : List Obj) (w stop : Nat) (hw : 1 ≤ w) :
    ∀ fuel minT, stop - minT < fuel →
      List.Perm (windowFilters ds w stop fuel minT)
        (ds.filter (fun o =>
          decide (minT ≤ o.upd) && decide (o.upd < stop) && decide (1 ≤ o.id))) := by
  intro fuel
  induction fuel with
  | zero =>
    intro minT hfuel
    omega
  | succ fuel ih =>
    intro minT hfuel
    by_cases hlt : minT < stop
    · have hle1 : minT ≤ min (minT + w) stop := le_min (by omega) (by omega)
      have hle2 : min (minT + w) stop ≤ stop := min_le_right _ _
      have hih := ih (min (minT + w) stop) (by omega)
      have hhead : ds.filter (fun o =>
            decide (minT ≤ o.upd) && decide (o.upd < min (minT + w) stop)
              && decide (1 ≤ o.id))
          = (ds.filter (fun o =>
              decide (minT ≤ o.upd) && decide (o.upd < stop) && decide (1 ≤ o.id))).filter
            (fun o => decide (o.upd < min (minT + w) stop)) := by
        rw [List.filter_filter]
        apply List.filter_congr
        intro o _
        by_cases hA : minT ≤ o.upd <;> by_cases hB : o.upd < min (minT + w) stop <;>
          by_cases hC : 1 ≤ o.id <;> by_cases hD : o.upd < stop <;>
            (simp [hA, hB, hC, hD]; try omega)
      have htail : ds.filter (fun o =>
            decide (min (minT + w) stop ≤ o.upd) && decide (o.upd < stop)
              && decide (1 ≤ o.id))
          = (ds.filter (fun o =>
              decide (minT ≤ o.upd) && decide (o.upd < stop) && decide (1 ≤ o.id))).filter
            (fun o => !decide (o.upd < min (minT + w) stop)) := by
        rw [List.filter_filter]
        apply List.filter_congr
        intro o _
        by_cases hA : minT ≤ o.upd <;> by_cases hB : o.upd < min (minT + w) stop <;>
          by_cases hC : 1 ≤ o.id <;> by_cases hD : o.upd < stop <;>
            by_cases hE : min (minT + w) stop ≤ o.upd <;>
              (simp [hA, hB, hC, hD, hE]; try omega)
      rw [htail] at hih
      simp only [windowFilters, if_pos hlt]
      rw [hhead]
      exact List.Perm.trans (List.Perm.append_left _ hih) (List.filter_append_perm _ _)
    · have hnil : ds.filter (fun o =>
            decide (minT ≤ o.upd) && decide (o.upd < stop) && decide (1 ≤ o.id))
          = [] := by
        rw [List.filter_eq_nil_iff]
        intro o _
        simp only [Bool.and_eq_true, decide_eq_true_eq, not_and]
        intro h1 h2
        omega
      simp only [windowFilters, if_neg hlt, hnil]
      exact List.Perm.refl _

/-- With the whole dataset fitting in one page, the async runner fetches a
single page (or none when the dataset is empty) and the merge returns the
canonical dataset unchanged. -/
theorem runnerMerged_small (ds : List Obj) (limit bucket : Nat)
    (hlim : ds.length < limit) (hb : 0 < bucket) :
    runnerMerged ds.length limit bucket (asyncPageOf ds limit) = ds := by
  have hlimpos : 0 < limit := by omega
  rcases ds with _ | ⟨a, t⟩
  · have h0 : numPages 0 limit = 0 := by
      unfold numPages
      rw [Nat.zero_add]
      exact Nat.div_eq_of_lt (by omega)
    simp [runnerMerged, pageJobs, h0, chunkList, chunkAux, joinList, mergeResults,
      sortByKey, concatNonempty]
  · have hlen : (a :: t).length = t.length + 1 := List.length_cons a t
    have h1 : numPages (a :: t).length limit = 1 := by
      unfold numPages
      have hstep : (a :: t).length + limit - 1 = t.length + limit := by
        rw [hlen]; omega
      rw [hstep, Nat.add_div_right _ hlimpos, Nat.div_eq_of_lt (by rw [hlen] at hlim; omega)]
    have hjobs : pageJobs (a :: t).length limit = [1] := by
      unfold pageJobs
      rw [h1]
      decide
    have hchunk : chunkList [1] bucket = [[1]] := by
      unfold chunkList
      simp only [List.length_cons, List.length_nil]
      simp only [chunkAux]
      rw [List.take_of_length_le (by simp; omega), List.drop_eq_nil_of_le (by simp; omega)]
      rfl
    have hpage : asyncPageOf (a :: t) limit 1 = a :: t := by
      unfold asyncPageOf
      simp only [Nat.sub_self, Nat.zero_mul, List.drop_zero]
      exact List.take_of_length_le (by omega)
    rw [runnerMerged, hjobs, hchunk]
    simp [joinList, mergeResults, sortByKey, insertByKey, concatNonempty, hpage]

/-- C9 counterexample: for the canonical dataset c9ds served consistently
to both strategies (the sync remote filters it per window, the async
remote pages it), both strategies succeed, but the sync strategy emits
[id 5, id 3] (window order) while the async strategy emits [id 3, id 5]
(canonical page order): the emitted sequences differ. -/
theorem strategies_emit_different_orders :
    get_objects (syncRemoteOf c9ds) 250 1 2 3 0 ⟨[], none, []⟩
      = .done ⟨[⟨5, 0⟩, ⟨3, 1⟩], none, [1, 2]⟩
    ∧ runnerMerged c9ds.length 250 40 (asyncPageOf c9ds 250) = [⟨3, 1⟩, ⟨5, 0⟩]
    ∧ (stateOf (get_objects (syncRemoteOf c9ds) 250 1 2 3 0 ⟨[], none, []⟩)).emitted.map
        toDict
      ≠ runnerMerged c9ds.length 250 40 (asyncPageOf c9ds 250) := by
  refine ⟨by decide, by decide, by decide⟩

/-- C9 (corrected): for a dataset served consistently to both strategies,
whenever both succeed the async strategy emits the same records as the sync
strategy — the same multiset, in the same identity representation — but not
necessarily in the same order: the sync strategy emits window by window
while the async strategy emits in canonical page order (hypotheses: windows
of positive size, positive concurrency bucket, ids at least 1, the records
lie in the synced range, the page limit exceeds the dataset, and enough
fuel to reach the upper bound). -/
theorem sync_async_same_records (ds : List Obj) (limit w stop bucket fuel b : Nat)
    (hw : 1 ≤ w) (hb : 0 < bucket) (hlim : ds.length < limit)
    (hrange : ∀ o ∈ ds, 1 ≤ o.id ∧ b ≤ o.upd ∧ o.upd < stop)
    (hfuel : stop - b < fuel) :
    get_objects (syncRemoteOf ds) limit w stop fuel b ⟨[], none, []⟩
      = .done ⟨windowFilters ds w stop fuel b, none, windowMaxes w stop fuel b⟩
    ∧ List.Perm ((windowFilters ds w stop fuel b).map toDict)
        (runnerMerged ds.length limit bucket (asyncPageOf ds limit)) := by
  constructor
  · have h := get_objects_filterRemote ds limit w stop hw hlim
      (fun o ho => (hrange o ho).1) fuel b [] [] hfuel
    simpa using h
  · rw [runnerMerged_small ds limit bucket hlim hb]
    have hmap : (windowFilters ds w stop fuel b).map toDict
        = windowFilters ds w stop fuel b := List.map_id _
    rw [hmap]
    have hperm := windowFilters_perm ds w stop hw fuel b hfuel
    have hself : ds.filter (fun o =>
          decide (b ≤ o.upd) && decide (o.upd < stop) && decide (1 ≤ o.id)) = ds := by
      rw [List.filter_eq_self]
      intro o ho
      rcases hrange o ho with ⟨h1, h2, h3⟩
      simp [h1, h2, h3]
    rw [hself] at hperm
    exact hperm

/-- Closed witness of the amended C9 statement on the canonical dataset. -/
theorem sync_async_same_records_witness :
    get_objects (syncRemoteOf c9ds) 250 1 2 3 0 ⟨[], none, []⟩
      = .done ⟨windowFilters c9ds 1 2 3 0, none, windowMaxes 1 2 3 0⟩
    ∧ List.Perm ((windowFilters c9ds 1 2 3 0).map toDict)
        (runnerMerged c9ds.length 250 40 (asyncPageOf c9ds 250)) :=
  sync_async_same_records c9ds 250 1 2 40 3 0 (by decide) (by decide) (by decide)
    (by decide) (by decide)

end TapShopify
